import Mathlib

/-! A shallow embedding of `src/raft/raft.go`.

The Go file implements one Raft peer (`type Raft struct`) together with its two RPC
handlers, the reply processing of the two `send*` helpers, the election start-up and the
control loop that `Make` launches.

Modelling conventions.

* Every method that runs under `rf.mu` is a function from the server state before the
  critical section to the server state after it (plus the reply or return value).
* A Go slice index `xs[i]` panics when `i` is out of range.  Handlers therefore return an
  `Option`: `none` is a run-time panic, `some` is a normal return.  The Go operators `&&`
  and `||` evaluate their right operand only when needed; `andAlso` and `orElse` keep that
  order of evaluation.
* Go `int` is a 64 bit signed integer.  Fields are `Int`; the two increments of the source
  (`rf.currentTerm++`, `rf.voteNum++`) wrap around through `wrapInt`.
* `rf.logs` is a slice of pointers to entries; the model stores the entries themselves.
* Timers, the logger, the mutex, the wait group, the persister and the apply channel carry
  no data that the modelled code reads back; they are left out of the state.  Only
  `len(rf.peers)` is read from `rf.peers`, so the field `peers` holds that length.
-/

namespace RaftImpl

/-! ## Data model -/

/-- Source: `type LogEntry struct`. -/
structure LogEntry where
  Term : Int
  Value : Int
deriving DecidableEq, Repr

/-- Source: `type Raft struct`, restricted to the fields that hold protocol data. -/
structure Raft where
  /-- The value of `len(rf.peers)`. -/
  peers : Nat
  me : Int
  logs : List LogEntry
  /-- The role: 0 is follower, 1 is candidate, 2 is leader. -/
  state : Int
  currentTerm : Int
  votedFor : Int
  voteNum : Int
  commitIndex : Int
  lastApplied : Int
  nextIndex : List Int
  matchIndex : List Int
deriving DecidableEq, Repr

/-- Source: `type RequestVoteArgs struct`. -/
structure RequestVoteArgs where
  Term : Int
  CandidateId : Int
  LastLogIndex : Int
  LastLogTerm : Int
deriving DecidableEq, Repr

/-- Source: `type RequestVoteReply struct`. -/
structure RequestVoteReply where
  Term : Int
  VoteGranted : Bool
deriving DecidableEq, Repr

/-- Source: `type AppendEntriesArgs struct`. -/
structure AppendEntriesArgs where
  Term : Int
  LeaderId : Int
  PrevLogIndex : Int
  PrevLogTerm : Int
  Entries : List LogEntry
  LeaderCommit : Int
deriving DecidableEq, Repr

/-- Source: `type AppendEntriesReply struct`. -/
structure AppendEntriesReply where
  Term : Int
  Success : Bool
deriving DecidableEq, Repr

/-! ## Go primitives -/

/-- The value a Go `int` holds after an arithmetic result `x` wraps around to 64 bits. -/
def wrapInt (x : Int) : Int :=
  (x + 2 ^ 63) % 2 ^ 64 - 2 ^ 63

/-- The Go expression `logs[i]` for an `int` index: a panic (`none`) when `i` is negative
or not below `len(logs)`. -/
def logAt (logs : List LogEntry) (i : Int) : Option LogEntry :=
  if i < 0 then none else logs[i.toNat]?

/-- The Go expression `len(logs)` as an `int`. -/
def len (logs : List LogEntry) : Int :=
  (logs.length : Int)

/-- Go `a || b`: `b` is evaluated only when `a` is false; a panic in either propagates. -/
def orElse (a b : Option Bool) : Option Bool :=
  match a with
  | none => none
  | some true => some true
  | some false => b

/-- Go `a && b`: `b` is evaluated only when `a` is true; a panic in either propagates. -/
def andAlso (a b : Option Bool) : Option Bool :=
  match a with
  | none => none
  | some false => some false
  | some true => b

/-! ## Role changes -/

/-- Source: `func (rf *Raft) becomeFollower()`. -/
def becomeFollower (rf : Raft) : Raft :=
  { rf with state := 0, voteNum := 0, votedFor := -1 }

/-- Source: `func (rf *Raft) becomeLeader()`. -/
def becomeLeader (rf : Raft) : Raft :=
  { rf with state := 2 }

/-! ## Construction and the service interface -/

/-- Source: `func Make`, the state of the new server when `Make` returns.  Fields that the
source does not assign keep their Go zero value; `readPersist` has an empty body. -/
def Make (peers : Nat) (me : Int) : Raft :=
  { peers := peers
    me := me
    logs := []
    state := 0
    currentTerm := 0
    votedFor := -1
    voteNum := 0
    commitIndex := 0
    lastApplied := 0
    nextIndex := []
    matchIndex := [] }

/-- Source: `func (rf *Raft) GetState() (int, bool)`. -/
def GetState (rf : Raft) : Int × Bool :=
  (rf.currentTerm, rf.state == 2)

/-- Source: `func (rf *Raft) Start(command interface{}) (int, int, bool)`.  The result is
the server state after the call and the triple `(index, term, isLeader)`.  The command is
an `Int`, the type of `LogEntry.Value`. -/
def Start (rf : Raft) (_command : Int) : Raft × (Int × Int × Bool) :=
  let index : Int := -1
  let term : Int := -1
  let isLeader := true
  (rf, (index, term, isLeader))

/-! ## RPC handlers -/

/-- Source: `func (rf *Raft) RequestVote(args RequestVoteArgs, reply *RequestVoteReply)`.
Both fields of `reply` are assigned on every path, so the reply is a result. -/
def RequestVote (rf : Raft) (args : RequestVoteArgs) : Option (Raft × RequestVoteReply) :=
  let replyTerm := if rf.currentTerm > args.Term then rf.currentTerm else args.Term
  let rf1 := if rf.currentTerm > args.Term then rf else { rf with currentTerm := args.Term }
  let grant :=
    andAlso (some (decide (args.Term ≥ rf1.currentTerm)))
      (andAlso (some (rf1.votedFor == -1 || rf1.votedFor == args.CandidateId))
        (orElse (some (len rf1.logs == 0))
          (orElse
            ((logAt rf1.logs (len rf1.logs - 1)).map
              (fun e => decide (args.LastLogTerm ≥ e.Term)))
            (some (decide (args.LastLogIndex ≥ len rf1.logs - 1))))))
  grant.map (fun g =>
    if g then
      ({ rf1 with votedFor := args.CandidateId }, { Term := replyTerm, VoteGranted := true })
    else
      (rf1, { Term := replyTerm, VoteGranted := false }))

/-- Source: `func (rf *Raft) AppendEntries(args AppendEntriesArgs, reply *AppendEntriesReply)`.
The successful branch of the source only sets `reply.Success = true`; its remaining steps
are a `TODO` comment. -/
def AppendEntries (rf : Raft) (args : AppendEntriesArgs) :
    Option (Raft × AppendEntriesReply) :=
  let replyTerm := if rf.currentTerm > args.Term then rf.currentTerm else args.Term
  let rf1 :=
    if rf.currentTerm > args.Term then rf
    else
      let rf0 := if rf.state == 1 || rf.state == 2 then becomeFollower rf else rf
      { rf0 with currentTerm := args.Term }
  if rf1.currentTerm > args.Term then
    some (rf1, { Term := replyTerm, Success := false })
  else
    let mismatch :=
      orElse (some (decide (args.PrevLogIndex ≥ len rf1.logs)))
        (orElse (some (decide (args.PrevLogIndex < 0)))
          ((logAt rf1.logs args.PrevLogIndex).map
            (fun e => args.PrevLogTerm != e.Term)))
    mismatch.map (fun m =>
      if m then (rf1, { Term := replyTerm, Success := false })
      else (rf1, { Term := replyTerm, Success := true }))

/-! ## Reply processing of the senders -/

/-- Source: `func (rf *Raft) sendRequestVote`, the critical section after `Call` returned
`ok` with `reply`; the result is the server state and the returned `ok`. -/
def sendRequestVote (rf : Raft) (ok : Bool) (reply : RequestVoteReply) : Raft × Bool :=
  if ok then
    let rf1 :=
      if rf.currentTerm < reply.Term then
        { becomeFollower rf with currentTerm := reply.Term }
      else rf
    let rf2 :=
      if reply.VoteGranted then { rf1 with voteNum := wrapInt (rf1.voteNum + 1) } else rf1
    (rf2, ok)
  else (rf, ok)

/-- Source: `func (rf *Raft) sendAppendEntries`, the critical section after `Call`
returned `ok` with `reply`. -/
def sendAppendEntries (rf : Raft) (ok : Bool) (reply : AppendEntriesReply) : Raft × Bool :=
  if ok then
    let rf1 :=
      if rf.currentTerm < reply.Term then
        { becomeFollower rf with currentTerm := reply.Term }
      else rf
    (rf1, ok)
  else (rf, ok)

/-! ## Elections and heartbeats -/

/-- Source: `func (rf *Raft) startElection(expectedState int)`, the critical section.  The
boolean tells whether the guard passed, that is whether the `RequestVote` goroutines are
spawned afterwards. -/
def startElection (rf : Raft) (expectedState : Int) : Raft × Bool :=
  if rf.state != expectedState then (rf, false)
  else
    ({ rf with
        state := 1
        currentTerm := wrapInt (rf.currentTerm + 1)
        voteNum := 1
        votedFor := rf.me }, true)

/-- Source: the goroutine body inside `startElection`, the arguments it builds from the
server state it reads. -/
def requestVoteArgs (rf : Raft) : RequestVoteArgs :=
  { Term := rf.currentTerm
    CandidateId := rf.me
    LastLogIndex := len rf.logs - 1
    LastLogTerm := match rf.logs.getLast? with
      | some e => e.Term
      | none => 0 }

/-- Source: `func (rf *Raft) sendHeartBeat()`, the guard of the critical section: the
heartbeat goroutines are spawned only by a leader.  The state is not modified. -/
def sendHeartBeat (rf : Raft) : Raft × Bool :=
  if rf.state != 2 then (rf, false) else (rf, true)

/-- Source: the goroutine body inside `sendHeartBeat`, the arguments it builds. -/
def heartBeatArgs (rf : Raft) : AppendEntriesArgs :=
  { Term := rf.currentTerm
    LeaderId := rf.me
    PrevLogIndex := len rf.logs - 1
    PrevLogTerm := match rf.logs.getLast? with
      | some e => e.Term
      | none => 0
    Entries := []
    LeaderCommit := rf.commitIndex }

/-! ## The control loop started by `Make` -/

/-- The case of a `select` statement of the control loop that fires. -/
inductive Select where
  | timer
  | kill
deriving DecidableEq, Repr

/-- Source: the candidate branch of the loop in `Make` (`if rf.state == 1 { ... }`).  The
boolean tells whether `startElection` spawned its goroutines. -/
def candidateStep (rf : Raft) (sel : Select) : Raft × Bool :=
  if rf.state == 1 then
    if rf.voteNum ≥ ((rf.peers / 2 : Nat) : Int) then
      (if rf.state == 1 then becomeLeader rf else rf, false)
    else
      match sel with
      | Select.timer => startElection rf 1
      | Select.kill => (rf, false)
  else (rf, false)

/-- Source: the follower branch of the loop in `Make` (`if rf.state == 0 { ... }`). -/
def followerStep (rf : Raft) (sel : Select) : Raft × Bool :=
  if rf.state == 0 then
    match sel with
    | Select.timer => startElection rf 0
    | Select.kill => (rf, false)
  else (rf, false)

/-- Source: the leader branch of the loop in `Make` (`if rf.state == 2 { ... }`). -/
def leaderStep (rf : Raft) (sel : Select) : Raft × Bool :=
  if rf.state == 2 then
    match sel with
    | Select.timer => sendHeartBeat rf
    | Select.kill => (rf, false)
  else (rf, false)

/-- The server state `AppendEntries` leaves behind when the request is not stale: the
server is a follower (a candidate or leader went through `becomeFollower`) in the term of
the request. -/
def acceptedState (rf : Raft) (args : AppendEntriesArgs) : Raft :=
  { (if rf.state == 1 || rf.state == 2 then becomeFollower rf else rf) with
    currentTerm := args.Term }

/-! ## A cluster of servers

One node is a server together with the goroutines its control loop has spawned and not
yet seen finish.  An RPC event is a whole round trip: the goroutine builds its arguments,
the handler runs on the callee, and the caller processes the reply.  -/

/-- What the transport does with one call. -/
inductive Delivery where
  /-- The request never reaches the callee; `Call` returns `false`. -/
  | lostRequest
  /-- The handler runs on the callee but the reply is lost; `Call` returns `false`. -/
  | lostReply
  /-- The handler runs and `Call` returns `true` with its reply. -/
  | completed
deriving DecidableEq, Repr

/-- A server and the bookkeeping of its goroutines. -/
structure Node where
  rf : Raft
  /-- Callees of the `RequestVote` goroutines spawned by `startElection`, not finished. -/
  votes : List Nat
  /-- Callees of the goroutines spawned by `sendHeartBeat`, not finished. -/
  beats : List Nat
  /-- The control loop is inside the `rf.wg.Wait()` that ends `startElection`. -/
  inWait : Bool
deriving DecidableEq, Repr

/-- The control loop cannot take a step while `rf.wg.Wait()` has goroutines to wait for. -/
def Node.blocked (nd : Node) : Bool :=
  nd.inWait && !(nd.votes.isEmpty && nd.beats.isEmpty)

/-- The peers a fan-out loop calls: `for i := range rf.peers` skipping `rf.me`. -/
def others (rf : Raft) : List Nat :=
  (List.range rf.peers).filter (fun i => decide ((i : Int) ≠ rf.me))

abbrev Cluster := List Node

/-- The cluster right after each of `n` servers was built by `Make`. -/
def boot (n : Nat) : Cluster :=
  (List.range n).map (fun i => { rf := Make n i, votes := [], beats := [], inWait := false })

/-- The events of a cluster. -/
inductive Event where
  /-- Server `i` passes through the follower branch of its loop. -/
  | follower (i : Nat) (sel : Select)
  /-- Server `i` passes through the candidate branch of its loop. -/
  | candidate (i : Nat) (sel : Select)
  /-- Server `i` passes through the leader branch of its loop. -/
  | leader (i : Nat) (sel : Select)
  /-- A `RequestVote` goroutine of server `i` calls server `j`. -/
  | requestVote (i j : Nat) (d : Delivery)
  /-- A heartbeat goroutine of server `i` calls server `j`. -/
  | appendEntries (i j : Nat) (d : Delivery)
deriving DecidableEq, Repr

/-- One pass of the control loop of node `nd` through the branch `branch`. -/
def loopStep (nd : Node) (branch : Raft → Select → Raft × Bool) (sel : Select)
    (isLeaderBranch : Bool) : Option Node :=
  if nd.blocked then none
  else
    let r := branch nd.rf sel
    if r.2 then
      if isLeaderBranch then
        some { rf := r.1, votes := nd.votes, beats := nd.beats ++ others r.1, inWait := false }
      else
        some { rf := r.1, votes := nd.votes ++ others r.1, beats := nd.beats, inWait := true }
    else
      some { rf := r.1, votes := nd.votes, beats := nd.beats, inWait := false }

/-- One event of the cluster; `none` when the event is not enabled or a handler panics. -/
def step (cl : Cluster) : Event → Option Cluster
  | Event.follower i sel =>
    match cl[i]? with
    | none => none
    | some nd => (loopStep nd followerStep sel false).map (fun nd1 => cl.set i nd1)
  | Event.candidate i sel =>
    match cl[i]? with
    | none => none
    | some nd => (loopStep nd candidateStep sel false).map (fun nd1 => cl.set i nd1)
  | Event.leader i sel =>
    match cl[i]? with
    | none => none
    | some nd => (loopStep nd leaderStep sel true).map (fun nd1 => cl.set i nd1)
  | Event.requestVote i j d =>
    match cl[i]?, cl[j]? with
    | some caller, some callee =>
      if j ∈ caller.votes ∧ i ≠ j then
        let args := requestVoteArgs caller.rf
        match d with
        | Delivery.lostRequest =>
          let caller1 := { caller with
            rf := (sendRequestVote caller.rf false { Term := 0, VoteGranted := false }).1
            votes := caller.votes.erase j }
          some (cl.set i caller1)
        | Delivery.lostReply =>
          (RequestVote callee.rf args).map (fun r =>
            let caller1 := { caller with
              rf := (sendRequestVote caller.rf false r.2).1
              votes := caller.votes.erase j }
            (cl.set j { callee with rf := r.1 }).set i caller1)
        | Delivery.completed =>
          (RequestVote callee.rf args).map (fun r =>
            let caller1 := { caller with
              rf := (sendRequestVote caller.rf true r.2).1
              votes := caller.votes.erase j }
            (cl.set j { callee with rf := r.1 }).set i caller1)
      else none
    | _, _ => none
  | Event.appendEntries i j d =>
    match cl[i]?, cl[j]? with
    | some caller, some callee =>
      if j ∈ caller.beats ∧ i ≠ j then
        let args := heartBeatArgs caller.rf
        match d with
        | Delivery.lostRequest =>
          let caller1 := { caller with
            rf := (sendAppendEntries caller.rf false { Term := 0, Success := false }).1
            beats := caller.beats.erase j }
          some (cl.set i caller1)
        | Delivery.lostReply =>
          (AppendEntries callee.rf args).map (fun r =>
            let caller1 := { caller with
              rf := (sendAppendEntries caller.rf false r.2).1
              beats := caller.beats.erase j }
            (cl.set j { callee with rf := r.1 }).set i caller1)
        | Delivery.completed =>
          (AppendEntries callee.rf args).map (fun r =>
            let caller1 := { caller with
              rf := (sendAppendEntries caller.rf true r.2).1
              beats := caller.beats.erase j }
            (cl.set j { callee with rf := r.1 }).set i caller1)
      else none
    | _, _ => none

/-- The cluster after a sequence of events, `none` if one of them is not enabled. -/
def run (cl : Cluster) : List Event → Option Cluster
  | [] => some cl
  | e :: es =>
    match step cl e with
    | none => none
    | some c1 => run c1 es

/-- The servers of cluster `cl` that have `state = 2`, each with its `currentTerm`. -/
def leaders (cl : Cluster) : List (Int × Int) :=
  (cl.filter (fun nd => nd.rf.state == 2)).map (fun nd => (nd.rf.me, nd.rf.currentTerm))

/-- Election Safety of one cluster state: two servers that are both leader in the same
term are the same server. -/
def ElectionSafety (cl : Cluster) : Prop :=
  ∀ (i j : Nat) (a b : Node), cl[i]? = some a → cl[j]? = some b →
    a.rf.state = 2 → b.rf.state = 2 → a.rf.currentTerm = b.rf.currentTerm → i = j

/-- Three servers time out as followers; servers 0 and 1 start an election in term 1 and
every call of both elections completes. -/
def splitElection : List Event :=
  [ Event.follower 0 Select.timer,
    Event.follower 1 Select.timer,
    Event.requestVote 0 1 Delivery.completed,
    Event.requestVote 0 2 Delivery.completed,
    Event.requestVote 1 0 Delivery.completed,
    Event.requestVote 1 2 Delivery.completed,
    Event.candidate 0 Select.timer,
    Event.candidate 1 Select.timer ]

/-! ## The vote-granting rule in the words of the specification -/

/-- The candidate's log, described by `lastLogIndex` and `lastLogTerm`, is at least as
up-to-date as `logs`: the last term is compared first (higher wins) and on equal terms
the last index (higher or equal wins); every candidate is up-to-date for an empty log. -/
def specUpToDate (logs : List LogEntry) (lastLogIndex lastLogTerm : Int) : Bool :=
  match logs.getLast? with
  | none => true
  | some e =>
    decide (lastLogTerm > e.Term) ||
      (lastLogTerm == e.Term && decide (lastLogIndex ≥ len logs - 1))

/-- The vote-granting rule for a request of the receiver's own term: the vote is unset or
already given to the requester, and the requester's log is up-to-date. -/
def specVoteGranted (rf : Raft) (args : RequestVoteArgs) : Bool :=
  (rf.votedFor == -1 || rf.votedFor == args.CandidateId) &&
    specUpToDate rf.logs args.LastLogIndex args.LastLogTerm

/-- The commit index a successful AppendEntries has to leave, in the words of the
specification: `min(args.LeaderCommit, index of the last new entry)` if that raises the
old value, where the last new entry has index `PrevLogIndex + len(Entries)`. -/
def specCommitIndex (commitIndex : Int) (args : AppendEntriesArgs) : Int :=
  max commitIndex (min args.LeaderCommit (args.PrevLogIndex + len args.Entries))

/-! ## The operations of one server -/

/-- The operations on the state of one server: the two handlers, the reply processing of
the two senders, and the methods that the control loop and the service call. -/
inductive Op where
  | requestVote (args : RequestVoteArgs)
  | appendEntries (args : AppendEntriesArgs)
  | voteReply (ok : Bool) (reply : RequestVoteReply)
  | appendReply (ok : Bool) (reply : AppendEntriesReply)
  | startElection (expectedState : Int)
  | becomeFollower
  | becomeLeader
  | start (command : Int)
deriving DecidableEq, Repr

/-- The server state after one operation; `none` when the operation panics. -/
def exec (rf : Raft) : Op → Option Raft
  | Op.requestVote args => (RequestVote rf args).map (fun r => r.1)
  | Op.appendEntries args => (AppendEntries rf args).map (fun r => r.1)
  | Op.voteReply ok reply => some (sendRequestVote rf ok reply).1
  | Op.appendReply ok reply => some (sendAppendEntries rf ok reply).1
  | Op.startElection expectedState => some (startElection rf expectedState).1
  | Op.becomeFollower => some (becomeFollower rf)
  | Op.becomeLeader => some (becomeLeader rf)
  | Op.start command => some (Start rf command).1

/-- The server state after a sequence of operations; `none` when one of them panics. -/
def execAll (rf : Raft) : List Op → Option Raft
  | [] => some rf
  | op :: ops =>
    match exec rf op with
    | none => none
    | some rf1 => execAll rf1 ops

/-- The largest value of a Go `int` on a 64 bit platform. -/
def maxInt : Int := 2 ^ 63 - 1

/-- The smallest value of a Go `int` on a 64 bit platform. -/
def minInt : Int := -(2 ^ 63)

/-! ## Concrete servers and requests -/

/-- Server 0 of three as the leader of term 1, elected with its own vote and one more. -/
def leaderOfTermOne : Raft :=
  { Make 3 0 with state := 2, currentTerm := 1, votedFor := 0, voteNum := 2 }

/-- Server 2 of three as a follower in term 3 that has not voted; its log ends with an
entry of term 2 at index 1. -/
def followerWithLog : Raft :=
  { Make 3 2 with currentTerm := 3, logs := [⟨0, 0⟩, ⟨2, 5⟩] }

/-- Server 2 of three as a follower in term 1 whose log is the single entry of index 0. -/
def followerShortLog : Raft :=
  { Make 3 2 with currentTerm := 1, logs := [⟨0, 0⟩] }

/-- Server 2 of three as a follower in term 1 that holds two entries and has committed
none beyond index 0. -/
def followerTwoEntries : Raft :=
  { Make 3 2 with currentTerm := 1, logs := [⟨0, 0⟩, ⟨1, 7⟩] }

/-- Server 0 of three as a follower whose term is the largest `int`. -/
def followerAtMaxTerm : Raft :=
  { Make 3 0 with currentTerm := maxInt }

/-- Server 0 of three as a follower in term 2 after it stepped down from its candidacy of
term 1: `becomeFollower` has reset its vote count. -/
def steppedDown : Raft :=
  { Make 3 0 with currentTerm := 2 }

/-- Server 0 of three as a candidate of term 2 that holds its own vote only. -/
def candidateOfTermTwo : Raft :=
  { Make 3 0 with state := 1, currentTerm := 2, votedFor := 0, voteNum := 1 }

/-- Server 0 of three as a follower of term 1 that has not voted in that term. -/
def followerOfTermOne : Raft :=
  { Make 3 0 with currentTerm := 1 }

/-! ## Helper lemmas -/

/-- A log access returns an entry exactly for an index inside the log. -/
theorem logAt_eq_some_iff (logs : List LogEntry) (i : Int) (e : LogEntry) :
    logAt logs i = some e ↔ 0 ≤ i ∧ i < len logs ∧ logs[i.toNat]? = some e := by
  unfold logAt len
  constructor
  · intro h
    split at h
    · cases h
    · rename_i hneg
      have h0 : 0 ≤ i := by omega
      refine ⟨h0, ?_, h⟩
      have hlt : i.toNat < logs.length := (List.getElem?_eq_some_iff.mp h).1
      omega
  · rintro ⟨h0, _, h⟩
    rw [if_neg (by omega)]
    exact h

/-- A log access inside the log does not panic. -/
theorem logAt_isSome_of_lt (logs : List LogEntry) (i : Int) (h0 : 0 ≤ i)
    (h1 : i < len logs) : ∃ e, logAt logs i = some e := by
  unfold len at h1
  have hlt : i.toNat < logs.length := by omega
  refine ⟨logs[i.toNat], ?_⟩
  unfold logAt
  rw [if_neg (by omega)]
  exact List.getElem?_eq_getElem hlt

/-- Accepting a request does not touch the log. -/
theorem acceptedState_logs (rf : Raft) (args : AppendEntriesArgs) :
    (acceptedState rf args).logs = rf.logs := by
  unfold acceptedState
  split <;> rfl

/-- The handler on a request that is not stale: the consistency check of the source on
the unchanged log, and the accepted state whatever the check says. -/
theorem appendEntries_of_term_ge (rf : Raft) (args : AppendEntriesArgs)
    (h : args.Term ≥ rf.currentTerm) :
    AppendEntries rf args =
      (orElse (some (decide (args.PrevLogIndex ≥ len rf.logs)))
        (orElse (some (decide (args.PrevLogIndex < 0)))
          ((logAt rf.logs args.PrevLogIndex).map
            (fun e => args.PrevLogTerm != e.Term)))).map
        (fun m => (acceptedState rf args, { Term := args.Term, Success := !m })) := by
  have hngt : ¬ rf.currentTerm > args.Term := by omega
  have hlogs := acceptedState_logs rf args
  unfold acceptedState at hlogs
  simp only [AppendEntries, hngt, if_false, gt_iff_lt, lt_self_iff_false, hlogs, acceptedState]
  congr 1
  funext m
  cases m <;> rfl

/-- The state `RequestVote` works on after its term comparison. -/
theorem requestVote_total (rf : Raft) (args : RequestVoteArgs) :
    ∃ g : Bool, RequestVote rf args =
      some (if g then
          ({ (if rf.currentTerm > args.Term then rf
              else { rf with currentTerm := args.Term }) with votedFor := args.CandidateId },
            { Term := if rf.currentTerm > args.Term then rf.currentTerm else args.Term,
              VoteGranted := true })
        else
          ((if rf.currentTerm > args.Term then rf else { rf with currentTerm := args.Term }),
            { Term := if rf.currentTerm > args.Term then rf.currentTerm else args.Term,
              VoteGranted := false })) := by
  have hlogs : (if rf.currentTerm > args.Term then rf
      else { rf with currentTerm := args.Term }).logs = rf.logs := by
    split <;> rfl
  have hgrant : ∀ (a b c : Bool) (f : LogEntry → Bool), ∃ g : Bool,
      andAlso (some a) (andAlso (some b) (orElse (some (len rf.logs == 0))
        (orElse ((logAt rf.logs (len rf.logs - 1)).map f) (some c)))) = some g := by
    intro a b c f
    cases a
    · exact ⟨false, rfl⟩
    · cases b
      · exact ⟨false, rfl⟩
      · by_cases h0 : len rf.logs = 0
        · exact ⟨true, by simp [andAlso, orElse, h0]⟩
        · have hpos : 0 < len rf.logs := by
            have : 0 ≤ len rf.logs := by unfold len; omega
            omega
          obtain ⟨e, he⟩ := logAt_isSome_of_lt rf.logs (len rf.logs - 1) (by omega) (by omega)
          have hb : (len rf.logs == 0) = false := beq_eq_false_iff_ne.mpr h0
          cases hf : f e
          · exact ⟨c, by simp [andAlso, orElse, hb, he, hf]⟩
          · exact ⟨true, by simp [andAlso, orElse, hb, he, hf]⟩
  obtain ⟨g, hg⟩ := hgrant (decide (args.Term ≥ (if rf.currentTerm > args.Term then rf
      else { rf with currentTerm := args.Term }).currentTerm))
    ((if rf.currentTerm > args.Term then rf
      else { rf with currentTerm := args.Term }).votedFor == -1 ||
      (if rf.currentTerm > args.Term then rf
      else { rf with currentTerm := args.Term }).votedFor == args.CandidateId)
    (decide (args.LastLogIndex ≥ len rf.logs - 1))
    (fun e => decide (args.LastLogTerm ≥ e.Term))
  refine ⟨g, ?_⟩
  unfold RequestVote
  simp only [hlogs]
  rw [hg]
  cases g <;> rfl

/-- The handler on a stale request: nothing changes and the reply carries the receiver's
term. -/
theorem appendEntries_of_term_lt (rf : Raft) (args : AppendEntriesArgs)
    (h : args.Term < rf.currentTerm) :
    AppendEntries rf args = some (rf, { Term := rf.currentTerm, Success := false }) := by
  have hgt : rf.currentTerm > args.Term := h
  simp [AppendEntries, hgt]

/-- The consistency check of `AppendEntries` never reads outside the log, and it reports a
mismatch for an index outside the log. -/
theorem mismatch_total (logs : List LogEntry) (i : Int) (f : LogEntry → Bool) :
    ∃ m : Bool,
      orElse (some (decide (i ≥ len logs)))
        (orElse (some (decide (i < 0))) ((logAt logs i).map f)) = some m ∧
      ((i < 0 ∨ i ≥ len logs) → m = true) := by
  by_cases hge : i ≥ len logs
  · exact ⟨true, by simp [orElse, hge], fun _ => rfl⟩
  · by_cases hneg : i < 0
    · exact ⟨true, by simp [orElse, hge, hneg], fun _ => rfl⟩
    · obtain ⟨e, he⟩ := logAt_isSome_of_lt logs i (by omega) (by omega)
      refine ⟨f e, by simp [orElse, hge, hneg, he], ?_⟩
      rintro (h | h)
      · exact absurd h hneg
      · exact absurd h hge

/-- The handler `AppendEntries` returns on every input: a stale request leaves the state
alone, any other request leaves the accepted state. -/
theorem appendEntries_total (rf : Raft) (args : AppendEntriesArgs) :
    ∃ b : Bool,
      AppendEntries rf args =
        some (if rf.currentTerm > args.Term then (rf, { Term := rf.currentTerm, Success := false })
          else (acceptedState rf args, { Term := args.Term, Success := b })) ∧
      ((args.PrevLogIndex < 0 ∨ args.PrevLogIndex ≥ len rf.logs) → b = false) := by
  by_cases hgt : rf.currentTerm > args.Term
  · refine ⟨false, ?_, fun _ => rfl⟩
    rw [appendEntries_of_term_lt rf args hgt, if_pos hgt]
  · obtain ⟨m, hm, hout⟩ := mismatch_total rf.logs args.PrevLogIndex
      (fun e => args.PrevLogTerm != e.Term)
    refine ⟨!m, ?_, fun h => by rw [hout h]; rfl⟩
    rw [appendEntries_of_term_ge rf args (by omega), hm, if_neg hgt]
    rfl

/-- Below the largest `int` the increment of the source does not wrap around. -/
theorem wrapInt_succ (x : Int) (hlo : minInt ≤ x) (hhi : x < maxInt) :
    wrapInt (x + 1) = x + 1 := by
  unfold wrapInt
  unfold minInt at hlo
  unfold maxInt at hhi
  norm_num at hlo hhi ⊢
  omega

/-- Below the largest `int` the increment of the source does not decrease the value. -/
theorem le_wrapInt_succ (x : Int) (hhi : x < maxInt) : x ≤ wrapInt (x + 1) := by
  unfold wrapInt
  unfold maxInt at hhi
  norm_num at hhi ⊢
  omega

/-- Every operation returns, and none of them writes `commitIndex` or `lastApplied`. -/
theorem exec_frame (rf : Raft) (op : Op) :
    ∃ rf1, exec rf op = some rf1 ∧ rf1.commitIndex = rf.commitIndex ∧
      rf1.lastApplied = rf.lastApplied := by
  cases op with
  | requestVote args =>
    obtain ⟨g, hg⟩ := requestVote_total rf args
    refine ⟨_, by rw [exec, hg]; rfl, ?_, ?_⟩ <;> cases g <;> simp <;> split <;> rfl
  | appendEntries args =>
    obtain ⟨b, hb, _⟩ := appendEntries_total rf args
    refine ⟨_, by rw [exec, hb]; rfl, ?_, ?_⟩ <;> split <;>
      simp only [acceptedState] <;> split <;> rfl
  | voteReply ok reply =>
    refine ⟨_, rfl, ?_, ?_⟩ <;> simp only [sendRequestVote] <;> cases ok <;>
      cases reply.VoteGranted <;> simp <;> split <;> rfl
  | appendReply ok reply =>
    refine ⟨_, rfl, ?_, ?_⟩ <;> simp only [sendAppendEntries] <;> cases ok <;>
      simp <;> split <;> rfl
  | startElection e =>
    refine ⟨_, rfl, ?_, ?_⟩ <;> simp only [startElection] <;> split <;> rfl
  | becomeFollower => exact ⟨_, rfl, rfl, rfl⟩
  | becomeLeader => exact ⟨_, rfl, rfl, rfl⟩
  | start command => exact ⟨_, rfl, rfl, rfl⟩

/-- A sequence of operations returns and writes neither `commitIndex` nor `lastApplied`. -/
theorem execAll_frame (ops : List Op) (rf : Raft) :
    ∃ rf1, execAll rf ops = some rf1 ∧ rf1.commitIndex = rf.commitIndex ∧
      rf1.lastApplied = rf.lastApplied := by
  induction ops generalizing rf with
  | nil => exact ⟨rf, rfl, rfl, rfl⟩
  | cons op ops ih =>
    obtain ⟨rf1, h1, hc1, ha1⟩ := exec_frame rf op
    obtain ⟨rf2, h2, hc2, ha2⟩ := ih rf1
    refine ⟨rf2, ?_, by rw [hc2, hc1], by rw [ha2, ha1]⟩
    simp only [execAll, h1, h2]

/-- Every operation returns, and `currentTerm` does not decrease unless the operation is
a `startElection` that passes its guard at the largest `int`. -/
theorem exec_term_mono (rf : Raft) (op : Op)
    (h : op = Op.startElection rf.state → rf.currentTerm < maxInt) :
    ∃ rf1, exec rf op = some rf1 ∧ rf.currentTerm ≤ rf1.currentTerm := by
  cases op with
  | requestVote args =>
    obtain ⟨g, hg⟩ := requestVote_total rf args
    refine ⟨_, by rw [exec, hg]; rfl, ?_⟩
    cases g <;> simp <;> split <;> simp <;> omega
  | appendEntries args =>
    obtain ⟨b, hb, _⟩ := appendEntries_total rf args
    refine ⟨_, by rw [exec, hb]; rfl, ?_⟩
    split
    · exact le_refl _
    · simp only [acceptedState]
      omega
  | voteReply ok reply =>
    refine ⟨_, rfl, ?_⟩
    simp only [sendRequestVote]
    cases ok <;> cases reply.VoteGranted <;> simp <;> split <;>
      simp [becomeFollower] <;> omega
  | appendReply ok reply =>
    refine ⟨_, rfl, ?_⟩
    simp only [sendAppendEntries]
    cases ok
    · exact le_refl _
    · simp only [if_true]
      split
      · simp only [becomeFollower]
        omega
      · exact le_refl _
  | startElection e =>
    refine ⟨_, rfl, ?_⟩
    simp only [startElection]
    split
    · exact le_refl _
    · rename_i hne
      have he : rf.state = e := by simpa using hne
      exact le_wrapInt_succ _ (h (by rw [he]))
  | becomeFollower => exact ⟨_, rfl, le_refl _⟩
  | becomeLeader => exact ⟨_, rfl, le_refl _⟩
  | start command => exact ⟨_, rfl, le_refl _⟩

/-! ## Theorems -/

/-- C1 (Election Safety), evaluated on the code: in a cluster of three servers built by
`Make`, servers 0 and 1 both time out as followers, every `RequestVote` call of the two
elections completes, and both servers then pass through the candidate branch of their
control loop.  The run is possible, and in the state it reaches servers 0 and 1 are both
leader in term 1, so Election Safety does not hold there. -/
theorem election_safety_broken_in_term_one :
    ∃ cl, run (boot 3) splitElection = some cl ∧ leaders cl = [(0, 1), (1, 1)] ∧
      ¬ ElectionSafety cl := by
  refine ⟨_, rfl, by decide, ?_⟩
  intro h
  have := h 0 1 _ _ rfl rfl (by decide) (by decide) (by decide)
  exact absurd this (by decide)

/-- C2 (vote-granting rule at equal terms), evaluated on the code: a follower in term 3
that has not voted and whose log ends at index 1 with an entry of term 2 receives a
request of term 3 from candidate 1 whose log ends at index 1 with term 1.  The rule of
the specification does not grant the vote (the candidate's last term is lower), the
handler grants it and records `votedFor = 1`. -/
theorem requestVote_grants_to_older_last_term :
    specVoteGranted followerWithLog ⟨3, 1, 1, 1⟩ = false ∧
      RequestVote followerWithLog ⟨3, 1, 1, 1⟩ =
        some ({ followerWithLog with votedFor := 1 }, ⟨3, true⟩) := by
  constructor
  · decide
  · rfl

/-- C3 (higher term in a vote request), evaluated on the code: the leader of term 1, which
voted for itself, receives a request of term 2 from candidate 1 with an empty log, the
same log as its own.  The handler adopts term 2 but the server stays leader
(`state = 2`), keeps `votedFor = 0`, and refuses the vote. -/
theorem requestVote_higher_term_keeps_role_and_vote :
    RequestVote leaderOfTermOne ⟨2, 1, -1, 0⟩ =
      some ({ leaderOfTermOne with currentTerm := 2 }, ⟨2, false⟩) ∧
    ({ leaderOfTermOne with currentTerm := 2 } : Raft).state = 2 ∧
    ({ leaderOfTermOne with currentTerm := 2 } : Raft).votedFor = 0 ∧
    specUpToDate leaderOfTermOne.logs (-1) 0 = true := by
  refine ⟨rfl, rfl, rfl, by decide⟩

/-- C4 (stale term in a vote request): when `args.Term < currentTerm` the handler returns
normally, the reply is `VoteGranted = false` with `Term = currentTerm`, and the whole
server state (in particular currentTerm, votedFor, state, voteNum, logs, commitIndex and
lastApplied) is the state before the call. -/
theorem requestVote_stale_term (rf : Raft) (args : RequestVoteArgs)
    (h : args.Term < rf.currentTerm) :
    RequestVote rf args = some (rf, { Term := rf.currentTerm, VoteGranted := false }) := by
  have hgt : rf.currentTerm > args.Term := h
  have hnge : ¬ args.Term ≥ rf.currentTerm := by omega
  simp [RequestVote, hgt, hnge, andAlso]

/-- The stale-term rule of `RequestVote` at a request of term 1 to a follower in term 3. -/
theorem requestVote_stale_term_witness :
    (1 : Int) < followerWithLog.currentTerm ∧
      RequestVote followerWithLog ⟨1, 0, 7, 7⟩ =
        some (followerWithLog, { Term := followerWithLog.currentTerm, VoteGranted := false }) :=
  ⟨by decide, requestVote_stale_term followerWithLog ⟨1, 0, 7, 7⟩ (by decide)⟩

/-- C5 (stale term in AppendEntries): when `args.Term < currentTerm` the handler returns
normally, the reply is `Success = false` with `Term = currentTerm`, and the whole server
state (in particular currentTerm, votedFor, state, voteNum, logs, commitIndex and
lastApplied) is the state before the call. -/
theorem appendEntries_stale_term (rf : Raft) (args : AppendEntriesArgs)
    (h : args.Term < rf.currentTerm) :
    AppendEntries rf args = some (rf, { Term := rf.currentTerm, Success := false }) := by
  have hgt : rf.currentTerm > args.Term := h
  simp [AppendEntries, hgt]

/-- The stale-term rule of `AppendEntries` at a request of term 2 to a follower in term 3. -/
theorem appendEntries_stale_term_witness :
    (2 : Int) < followerWithLog.currentTerm ∧
      AppendEntries followerWithLog ⟨2, 0, 1, 2, [⟨2, 9⟩], 1⟩ =
        some (followerWithLog, { Term := followerWithLog.currentTerm, Success := false }) :=
  ⟨by decide, appendEntries_stale_term followerWithLog ⟨2, 0, 1, 2, [⟨2, 9⟩], 1⟩ (by decide)⟩

/-- C6 (log-consistency check): when `args.Term >= currentTerm` the handler returns
normally, and `reply.Success` is true exactly when `args.PrevLogIndex` is an index of the
receiver's log (`0 <= PrevLogIndex < len(logs)`) and the entry there has term
`args.PrevLogTerm`; in every other case `reply.Success` is false. -/
theorem appendEntries_success_iff (rf : Raft) (args : AppendEntriesArgs)
    (h : args.Term ≥ rf.currentTerm) :
    ∃ rf1 reply, AppendEntries rf args = some (rf1, reply) ∧
      (reply.Success = true ↔
        (0 ≤ args.PrevLogIndex ∧ args.PrevLogIndex < len rf.logs ∧
          ∃ e, rf.logs[args.PrevLogIndex.toNat]? = some e ∧ e.Term = args.PrevLogTerm)) := by
  rw [appendEntries_of_term_ge rf args h]
  by_cases hge : args.PrevLogIndex ≥ len rf.logs
  · refine ⟨acceptedState rf args, ⟨args.Term, false⟩, ?_, ?_⟩
    · simp [hge, orElse]
    · simp only [Bool.false_eq_true, false_iff]
      rintro ⟨_, hlt, _⟩
      omega
  · by_cases hneg : args.PrevLogIndex < 0
    · refine ⟨acceptedState rf args, ⟨args.Term, false⟩, ?_, ?_⟩
      · simp [hge, hneg, orElse]
      · simp only [Bool.false_eq_true, false_iff]
        rintro ⟨h0, _, _⟩
        omega
    · obtain ⟨e, he⟩ := logAt_isSome_of_lt rf.logs args.PrevLogIndex (by omega) (by omega)
      have he2 := (logAt_eq_some_iff _ _ _).mp he
      by_cases ht : args.PrevLogTerm = e.Term
      · refine ⟨acceptedState rf args, ⟨args.Term, true⟩, ?_, ?_⟩
        · simp [hge, hneg, orElse, he, ht]
        · simp only [true_iff]
          exact ⟨he2.1, he2.2.1, e, he2.2.2, ht.symm⟩
      · refine ⟨acceptedState rf args, ⟨args.Term, false⟩, ?_, ?_⟩
        · simp [hge, hneg, orElse, he, ht]
        · simp only [Bool.false_eq_true, false_iff]
          rintro ⟨_, _, e1, he1, ht1⟩
          rw [he2.2.2] at he1
          cases he1
          exact ht ht1.symm

/-- The consistency check at a heartbeat of term 1 to a follower in term 1 whose entry at
index 1 has term 1. -/
theorem appendEntries_success_iff_witness :
    (1 : Int) ≥ followerTwoEntries.currentTerm ∧
    ∃ rf1 reply, AppendEntries followerTwoEntries ⟨1, 0, 1, 1, [], 0⟩ = some (rf1, reply) ∧
      (reply.Success = true ↔
        ((0 : Int) ≤ 1 ∧ (1 : Int) < len followerTwoEntries.logs ∧
          ∃ e, followerTwoEntries.logs[(1 : Int).toNat]? = some e ∧ e.Term = 1)) :=
  ⟨by decide, appendEntries_success_iff followerTwoEntries ⟨1, 0, 1, 1, [], 0⟩ (by decide)⟩

/-- C7 (log merge), evaluated on the code: a follower in term 1 whose log is the single
entry of index 0 receives, from the leader of term 1, the entry `(term 1, value 7)` for
index 1 after the matching entry of index 0.  The handler replies `Success = true` and
leaves the log as it was: the log still has one entry and nothing at index 1. -/
theorem appendEntries_does_not_store_entries :
    AppendEntries followerShortLog ⟨1, 0, 0, 0, [⟨1, 7⟩], 0⟩ =
      some (followerShortLog, ⟨1, true⟩) ∧
    followerShortLog.logs = [⟨0, 0⟩] ∧
    logAt followerShortLog.logs (0 + 1) = none := by
  refine ⟨rfl, rfl, rfl⟩

/-- C8 (commit index after a successful AppendEntries), evaluated on the code: a follower
in term 1 with entries at indices 0 and 1 and `commitIndex = 0` receives a heartbeat of
the leader of term 1 with `PrevLogIndex = 1`, no entries and `LeaderCommit = 1`.  The
specification asks for `commitIndex = max(0, min(1, 1 + 0)) = 1`; the handler replies
`Success = true` and leaves `commitIndex = 0`. -/
theorem appendEntries_does_not_advance_commitIndex :
    AppendEntries followerTwoEntries ⟨1, 0, 1, 1, [], 1⟩ =
      some (followerTwoEntries, ⟨1, true⟩) ∧
    followerTwoEntries.commitIndex = 0 ∧
    specCommitIndex followerTwoEntries.commitIndex ⟨1, 0, 1, 1, [], 1⟩ = 1 := by
  refine ⟨rfl, rfl, by decide⟩

/-- C9 (Start), evaluated on the code: for every server state and command `Start` returns
`(-1, -1, true)` and does not touch the state.  On the follower that `Make` builds it
reports `isLeader = true` while `GetState` reports `false`; on the leader of term 1 the
log gets no new entry and the returned index and term are `-1`, not `0` and `1`. -/
theorem start_always_claims_leadership :
    (∀ (rf : Raft) (command : Int), Start rf command = (rf, (-1, -1, true))) ∧
    (GetState (Make 3 0)).2 = false ∧
    (Start (Make 3 0) 7).2.2.2 = true ∧
    (GetState leaderOfTermOne).2 = true ∧
    (Start leaderOfTermOne 7).1.logs = leaderOfTermOne.logs ∧
    (Start leaderOfTermOne 7).2 = (-1, -1, true) := by
  refine ⟨fun _ _ => rfl, by decide, rfl, by decide, rfl, rfl⟩

/-- C10 (strict majority), evaluated on the code: server 0 of three peers has just started
an election, so it is a candidate with `voteNum = 1`, its own vote, which is not more than
`3 / 2 = 1`.  The candidate branch of the control loop makes it leader. -/
theorem candidateStep_leader_without_majority :
    (startElection (Make 3 0) 0).1.state = 1 ∧
    (startElection (Make 3 0) 0).1.voteNum = 1 ∧
    (startElection (Make 3 0) 0).1.peers = 3 ∧
    ¬ ((startElection (Make 3 0) 0).1.voteNum > ((3 / 2 : Nat) : Int)) ∧
    (candidateStep (startElection (Make 3 0) 0).1 Select.timer).1.state = 2 := by
  refine ⟨by decide, by decide, rfl, by decide, by decide⟩

/-- C11 (monotonicity of commitIndex and lastApplied): each of the operations RequestVote,
AppendEntries, the reply processing of sendRequestVote and sendAppendEntries,
startElection, becomeFollower, becomeLeader and Start returns on every input and leaves
`commitIndex` and `lastApplied` no smaller than before; and every state that a sequence
of these operations reaches from the state built by `Make` has
`lastApplied <= commitIndex`. -/
theorem commitIndex_lastApplied_monotone :
    (∀ (rf : Raft) (op : Op), ∃ rf1, exec rf op = some rf1 ∧
      rf.commitIndex ≤ rf1.commitIndex ∧ rf.lastApplied ≤ rf1.lastApplied) ∧
    (∀ (n : Nat) (me : Int), (Make n me).commitIndex = 0 ∧ (Make n me).lastApplied = 0) ∧
    (∀ (n : Nat) (me : Int) (ops : List Op), ∃ rf1, execAll (Make n me) ops = some rf1 ∧
      rf1.lastApplied ≤ rf1.commitIndex) := by
  refine ⟨?_, fun _ _ => ⟨rfl, rfl⟩, ?_⟩
  · intro rf op
    obtain ⟨rf1, h1, hc, ha⟩ := exec_frame rf op
    exact ⟨rf1, h1, by rw [hc], by rw [ha]⟩
  · intro n me ops
    obtain ⟨rf1, h1, hc, ha⟩ := execAll_frame ops (Make n me)
    refine ⟨rf1, h1, ?_⟩
    rw [hc, ha]
    exact le_refl _

/-- C12 (no index out of bounds): for every receiver state and every request, with any
integers in the index and term fields, `RequestVote` and `AppendEntries` return without a
panic, so no log access is out of bounds; and an `AppendEntries` request with
`args.Term >= currentTerm` whose `PrevLogIndex` is negative or at least `len(logs)` is
answered with `Success = false`. -/
theorem handlers_never_index_out_of_bounds :
    (∀ (rf : Raft) (args : RequestVoteArgs), ∃ r, RequestVote rf args = some r) ∧
    (∀ (rf : Raft) (args : AppendEntriesArgs), ∃ r, AppendEntries rf args = some r) ∧
    (∀ (rf : Raft) (args : AppendEntriesArgs), args.Term ≥ rf.currentTerm →
      (args.PrevLogIndex < 0 ∨ args.PrevLogIndex ≥ len rf.logs) →
      ∃ rf1 reply, AppendEntries rf args = some (rf1, reply) ∧ reply.Success = false) := by
  refine ⟨?_, ?_, ?_⟩
  · intro rf args
    obtain ⟨g, hg⟩ := requestVote_total rf args
    exact ⟨_, hg⟩
  · intro rf args
    obtain ⟨b, hb, _⟩ := appendEntries_total rf args
    exact ⟨_, hb⟩
  · intro rf args hterm hout
    obtain ⟨b, hb, hfalse⟩ := appendEntries_total rf args
    have hngt : ¬ rf.currentTerm > args.Term := by omega
    rw [if_neg hngt] at hb
    exact ⟨_, _, hb, hfalse hout⟩

/-- The out-of-range rule at the heartbeat a leader with an empty log sends
(`PrevLogIndex = -1`) and at an index beyond a log of two entries. -/
theorem handlers_never_index_out_of_bounds_witness :
    (∃ rf1 reply, AppendEntries (Make 3 1) ⟨1, 0, -1, 0, [], 0⟩ = some (rf1, reply) ∧
      reply.Success = false) ∧
    (∃ rf1 reply, AppendEntries followerTwoEntries ⟨1, 0, 2, 1, [], 0⟩ = some (rf1, reply) ∧
      reply.Success = false) :=
  ⟨handlers_never_index_out_of_bounds.2.2 (Make 3 1) ⟨1, 0, -1, 0, [], 0⟩ (by decide)
      (Or.inl (by decide)),
    handlers_never_index_out_of_bounds.2.2 followerTwoEntries ⟨1, 0, 2, 1, [], 0⟩ (by decide)
      (Or.inr (by decide))⟩

/-- C13 (a call that does not complete): with `ok = false` the reply processing of
`sendRequestVote` and of `sendAppendEntries` leaves the whole server state as it was,
whatever the reply record holds, and returns `false`. -/
theorem failed_call_changes_nothing :
    (∀ (rf : Raft) (reply : RequestVoteReply), sendRequestVote rf false reply = (rf, false)) ∧
    (∀ (rf : Raft) (reply : AppendEntriesReply),
      sendAppendEntries rf false reply = (rf, false)) :=
  ⟨fun _ _ => rfl, fun _ _ => rfl⟩

/-- C14 as stated fails on the code: on a follower whose term is the largest `int`,
`startElection(0)` passes its guard and the increment wraps around, so the new
`currentTerm` is the smallest `int` and not the old term plus one. -/
theorem startElection_wraps_at_maxInt :
    followerAtMaxTerm.state = 0 ∧
    (startElection followerAtMaxTerm 0).1.currentTerm = minInt ∧
    (startElection followerAtMaxTerm 0).1.currentTerm ≠ followerAtMaxTerm.currentTerm + 1 := by
  refine ⟨rfl, by decide, by decide⟩

/-- C14 (startElection), amended: if the state equals `expectedState`, the critical section
sets `state` to 1, `votedFor` to `me`, `voteNum` to 1 and `currentTerm` to the Go value of
`currentTerm + 1`, which is the old term plus one whenever the old term is an `int` below
the largest one; every other field (log, commitIndex, lastApplied among them) is
unchanged and the `RequestVote` goroutines are spawned.  If the state differs from
`expectedState`, the whole state is unchanged and no goroutine is spawned. -/
theorem startElection_effect (rf : Raft) (expectedState : Int) :
    (rf.state = expectedState →
      startElection rf expectedState =
        ({ rf with
            state := 1
            currentTerm := wrapInt (rf.currentTerm + 1)
            voteNum := 1
            votedFor := rf.me }, true) ∧
      (minInt ≤ rf.currentTerm → rf.currentTerm < maxInt →
        (startElection rf expectedState).1.currentTerm = rf.currentTerm + 1)) ∧
    (rf.state ≠ expectedState → startElection rf expectedState = (rf, false)) := by
  constructor
  · intro h
    have hres : startElection rf expectedState =
        ({ rf with
            state := 1
            currentTerm := wrapInt (rf.currentTerm + 1)
            voteNum := 1
            votedFor := rf.me }, true) := by
      simp [startElection, h]
    refine ⟨hres, fun hlo hhi => ?_⟩
    rw [hres]
    exact wrapInt_succ _ hlo hhi
  · intro h
    simp [startElection, h]

/-- The election start at the follower that `Make` builds (term 0 becomes term 1), and at
the leader of term 1 when a follower was expected. -/
theorem startElection_effect_witness :
    (startElection (Make 3 0) 0 =
        ({ Make 3 0 with
            state := 1
            currentTerm := wrapInt ((Make 3 0).currentTerm + 1)
            voteNum := 1
            votedFor := (Make 3 0).me }, true) ∧
      (minInt ≤ (Make 3 0).currentTerm → (Make 3 0).currentTerm < maxInt →
        (startElection (Make 3 0) 0).1.currentTerm = (Make 3 0).currentTerm + 1)) ∧
    startElection leaderOfTermOne 0 = (leaderOfTermOne, false) :=
  ⟨(startElection_effect (Make 3 0) 0).1 rfl,
    (startElection_effect leaderOfTermOne 0).2 (by decide)⟩

/-- C15 (higher term in a reply): after a completed call (`ok = true`) whose reply has a
term above `currentTerm`, the reply processing of `sendRequestVote` and of
`sendAppendEntries` leaves `state = 0`, `currentTerm = reply.Term` and `votedFor = -1`;
when the reply term is not above `currentTerm`, `state` and `currentTerm` are unchanged. -/
theorem reply_term_decides_step_down (rf : Raft) (rv : RequestVoteReply)
    (ae : AppendEntriesReply) :
    (rf.currentTerm < rv.Term →
      (sendRequestVote rf true rv).1.state = 0 ∧
      (sendRequestVote rf true rv).1.currentTerm = rv.Term ∧
      (sendRequestVote rf true rv).1.votedFor = -1) ∧
    (rv.Term ≤ rf.currentTerm →
      (sendRequestVote rf true rv).1.state = rf.state ∧
      (sendRequestVote rf true rv).1.currentTerm = rf.currentTerm) ∧
    (rf.currentTerm < ae.Term →
      (sendAppendEntries rf true ae).1.state = 0 ∧
      (sendAppendEntries rf true ae).1.currentTerm = ae.Term ∧
      (sendAppendEntries rf true ae).1.votedFor = -1) ∧
    (ae.Term ≤ rf.currentTerm →
      (sendAppendEntries rf true ae).1.state = rf.state ∧
      (sendAppendEntries rf true ae).1.currentTerm = rf.currentTerm) := by
  refine ⟨fun h => ?_, fun h => ?_, fun h => ?_, fun h => ?_⟩
  · cases hv : rv.VoteGranted <;> simp [sendRequestVote, h, hv, becomeFollower]
  · have hn : ¬ rf.currentTerm < rv.Term := by omega
    cases hv : rv.VoteGranted <;> simp [sendRequestVote, hn, hv]
  · simp [sendAppendEntries, h, becomeFollower]
  · have hn : ¬ rf.currentTerm < ae.Term := by omega
    simp [sendAppendEntries, hn]

/-- The step-down rule at the candidate of term 2: replies of term 3 make it a follower of
term 3, replies of term 2 leave it candidate of term 2. -/
theorem reply_term_decides_step_down_witness :
    ((sendRequestVote candidateOfTermTwo true ⟨3, false⟩).1.state = 0 ∧
      (sendRequestVote candidateOfTermTwo true ⟨3, false⟩).1.currentTerm = 3 ∧
      (sendRequestVote candidateOfTermTwo true ⟨3, false⟩).1.votedFor = -1) ∧
    ((sendRequestVote candidateOfTermTwo true ⟨2, true⟩).1.state = candidateOfTermTwo.state ∧
      (sendRequestVote candidateOfTermTwo true ⟨2, true⟩).1.currentTerm =
        candidateOfTermTwo.currentTerm) ∧
    ((sendAppendEntries candidateOfTermTwo true ⟨3, false⟩).1.state = 0 ∧
      (sendAppendEntries candidateOfTermTwo true ⟨3, false⟩).1.currentTerm = 3 ∧
      (sendAppendEntries candidateOfTermTwo true ⟨3, false⟩).1.votedFor = -1) ∧
    ((sendAppendEntries candidateOfTermTwo true ⟨2, false⟩).1.state =
        candidateOfTermTwo.state ∧
      (sendAppendEntries candidateOfTermTwo true ⟨2, false⟩).1.currentTerm =
        candidateOfTermTwo.currentTerm) :=
  ⟨(reply_term_decides_step_down candidateOfTermTwo ⟨3, false⟩ ⟨3, false⟩).1 (by decide),
    (reply_term_decides_step_down candidateOfTermTwo ⟨2, true⟩ ⟨2, false⟩).2.1 (by decide),
    (reply_term_decides_step_down candidateOfTermTwo ⟨3, false⟩ ⟨3, false⟩).2.2.1 (by decide),
    (reply_term_decides_step_down candidateOfTermTwo ⟨2, true⟩ ⟨2, false⟩).2.2.2 (by decide)⟩

/-- C16 (AppendEntries makes a follower): for a receiver that is follower, candidate or
leader and a request with `args.Term >= currentTerm`, the handler returns, and whatever
the consistency check says the receiver ends with `state = 0` and
`currentTerm = args.Term`, and `reply.Term` is that term. -/
theorem appendEntries_makes_follower (rf : Raft) (args : AppendEntriesArgs)
    (h : args.Term ≥ rf.currentTerm) (hs : rf.state = 0 ∨ rf.state = 1 ∨ rf.state = 2) :
    ∃ rf1 reply, AppendEntries rf args = some (rf1, reply) ∧
      rf1.state = 0 ∧ rf1.currentTerm = args.Term ∧ reply.Term = rf1.currentTerm := by
  obtain ⟨b, hb, _⟩ := appendEntries_total rf args
  have hngt : ¬ rf.currentTerm > args.Term := by omega
  rw [if_neg hngt] at hb
  refine ⟨_, _, hb, ?_, rfl, rfl⟩
  rcases hs with h0 | h1 | h2
  · simp [acceptedState, h0]
  · simp [acceptedState, h1, becomeFollower]
  · simp [acceptedState, h2, becomeFollower]

/-- The rule at the leader of term 1 that receives a heartbeat of term 1 which fails the
consistency check. -/
theorem appendEntries_makes_follower_witness :
    ∃ rf1 reply, AppendEntries leaderOfTermOne ⟨1, 1, -1, 0, [], 0⟩ = some (rf1, reply) ∧
      rf1.state = 0 ∧ rf1.currentTerm = 1 ∧ reply.Term = rf1.currentTerm :=
  appendEntries_makes_follower leaderOfTermOne ⟨1, 1, -1, 0, [], 0⟩ (by decide)
    (Or.inr (Or.inr rfl))

/-- C17 as stated fails on the code: the server built by `Make` receives a vote request
whose term is the largest `int` and adopts that term; when its timer then fires,
`startElection(0)` wraps the term around to the smallest `int`, which is below the term
before the operation and negative. -/
theorem currentTerm_decreases_at_maxInt :
    ∃ rf1 rf2, execAll (Make 3 0) [Op.requestVote ⟨maxInt, 1, -1, 0⟩] = some rf1 ∧
      exec rf1 (Op.startElection 0) = some rf2 ∧
      rf1.currentTerm = maxInt ∧ rf2.currentTerm = minInt ∧
      rf2.currentTerm < rf1.currentTerm ∧ rf2.currentTerm < 0 := by
  refine ⟨_, _, rfl, rfl, by decide, by decide, by decide, by decide⟩

/-- C17 (currentTerm is monotonic), amended: `Make` sets `currentTerm = 0`, and every
operation (RequestVote, AppendEntries, the reply processing of sendRequestVote and
sendAppendEntries, startElection, becomeFollower, becomeLeader, also Start) returns on
every input and leaves `currentTerm` no smaller than before, so a term that is not
negative stays so, provided that a `startElection` that passes its guard does not run at
the largest `int`. -/
theorem currentTerm_monotone_below_maxInt :
    (∀ (n : Nat) (me : Int), (Make n me).currentTerm = 0) ∧
    (∀ (rf : Raft) (op : Op), (op = Op.startElection rf.state → rf.currentTerm < maxInt) →
      ∃ rf1, exec rf op = some rf1 ∧ rf.currentTerm ≤ rf1.currentTerm ∧
        (0 ≤ rf.currentTerm → 0 ≤ rf1.currentTerm)) := by
  refine ⟨fun _ _ => rfl, fun rf op h => ?_⟩
  obtain ⟨rf1, h1, hle⟩ := exec_term_mono rf op h
  exact ⟨rf1, h1, hle, fun h0 => le_trans h0 hle⟩

/-- The monotonicity at the first election of the server that `Make` builds. -/
theorem currentTerm_monotone_below_maxInt_witness :
    ∃ rf1, exec (Make 3 0) (Op.startElection 0) = some rf1 ∧
      (Make 3 0).currentTerm ≤ rf1.currentTerm ∧
      (0 ≤ (Make 3 0).currentTerm → 0 ≤ rf1.currentTerm) :=
  currentTerm_monotone_below_maxInt.2 (Make 3 0) (Op.startElection 0) (fun _ => by decide)

/-- C18 as stated fails on the code.  Server 0 starts the election of term 1 and a
heartbeat of term 2 makes it a follower of term 2 with `voteNum = 0`; the granted reply to
its request of term 1 then raises `voteNum` to 1 although the server is no candidate.  In
the same way, when a vote request of term 2 has moved the candidate of term 1 to term 2,
the granted reply to its request of term 1 raises `voteNum` from 1 to 2. -/
theorem stale_granted_reply_is_counted :
    (requestVoteArgs (startElection (Make 3 0) 0).1).Term = 1 ∧
    execAll (Make 3 0) [Op.startElection 0, Op.appendEntries ⟨2, 1, -1, 0, [], 0⟩] =
      some steppedDown ∧
    steppedDown.state = 0 ∧ steppedDown.voteNum = 0 ∧
    (sendRequestVote steppedDown true ⟨1, true⟩).1.voteNum = 1 ∧
    execAll (Make 3 0) [Op.startElection 0, Op.requestVote ⟨2, 1, -1, 0⟩] =
      some candidateOfTermTwo ∧
    candidateOfTermTwo.currentTerm = 2 ∧ candidateOfTermTwo.voteNum = 1 ∧
    (sendRequestVote candidateOfTermTwo true ⟨1, true⟩).1.voteNum = 2 := by
  refine ⟨rfl, rfl, rfl, rfl, by decide, rfl, rfl, rfl, by decide⟩

/-- C18 (vote tally), amended: when `sendRequestVote` processes a completed reply, a reply
term above `currentTerm` first resets `voteNum` to 0 (the step-down); after that `voteNum`
is incremented, by the Go increment, if and only if `reply.VoteGranted` is true.  The role
of the server and the term of the request are not looked at.  For a reply whose term is
not above `currentTerm` and a `voteNum` below the largest `int`, a granted reply raises
`voteNum` by exactly one and a refused one leaves it as it was. -/
theorem voteNum_after_reply (rf : Raft) (reply : RequestVoteReply) :
    (sendRequestVote rf true reply).1.voteNum =
      (if reply.VoteGranted then
        wrapInt ((if rf.currentTerm < reply.Term then 0 else rf.voteNum) + 1)
      else (if rf.currentTerm < reply.Term then 0 else rf.voteNum)) ∧
    (reply.VoteGranted = true → reply.Term ≤ rf.currentTerm → minInt ≤ rf.voteNum →
      rf.voteNum < maxInt → (sendRequestVote rf true reply).1.voteNum = rf.voteNum + 1) ∧
    (reply.VoteGranted = false → reply.Term ≤ rf.currentTerm →
      (sendRequestVote rf true reply).1.voteNum = rf.voteNum) := by
  have hmain : (sendRequestVote rf true reply).1.voteNum =
      (if reply.VoteGranted then
        wrapInt ((if rf.currentTerm < reply.Term then 0 else rf.voteNum) + 1)
      else (if rf.currentTerm < reply.Term then 0 else rf.voteNum)) := by
    by_cases ht : rf.currentTerm < reply.Term <;>
      cases hv : reply.VoteGranted <;> simp [sendRequestVote, ht, hv, becomeFollower]
  refine ⟨hmain, fun hv ht hlo hhi => ?_, fun hv ht => ?_⟩
  · have hn : ¬ rf.currentTerm < reply.Term := by omega
    rw [hmain, hv, if_pos rfl, if_neg hn]
    exact wrapInt_succ _ hlo hhi
  · have hn : ¬ rf.currentTerm < reply.Term := by omega
    rw [hmain, hv, if_neg hn]
    simp

/-- The tally at the candidate of term 2: a granted reply of term 2 raises `voteNum` from
1 to 2, a refused one leaves it at 1. -/
theorem voteNum_after_reply_witness :
    (sendRequestVote candidateOfTermTwo true ⟨2, true⟩).1.voteNum =
        candidateOfTermTwo.voteNum + 1 ∧
    (sendRequestVote candidateOfTermTwo true ⟨2, false⟩).1.voteNum =
        candidateOfTermTwo.voteNum :=
  ⟨(voteNum_after_reply candidateOfTermTwo ⟨2, true⟩).2.1 rfl (by decide) (by decide)
      (by decide),
    (voteNum_after_reply candidateOfTermTwo ⟨2, false⟩).2.2 rfl (by decide)⟩

/-- C19 (one vote per term), evaluated on the code: server 0 starts the election of term 1
and votes for itself; a heartbeat of term 1 from server 1 makes it a follower of term 1
and `becomeFollower` clears its vote; the vote request of candidate 2 for term 1 is then
granted.  The server has voted for 0 and for 2 in term 1. -/
theorem second_vote_in_same_term :
    (startElection (Make 3 0) 0).1.currentTerm = 1 ∧
    (startElection (Make 3 0) 0).1.votedFor = 0 ∧
    execAll (Make 3 0) [Op.startElection 0, Op.appendEntries ⟨1, 1, -1, 0, [], 0⟩] =
      some followerOfTermOne ∧
    followerOfTermOne.currentTerm = 1 ∧ followerOfTermOne.votedFor = -1 ∧
    RequestVote followerOfTermOne ⟨1, 2, -1, 0⟩ =
      some ({ followerOfTermOne with votedFor := 2 }, ⟨1, true⟩) := by
  refine ⟨by decide, rfl, rfl, rfl, rfl, rfl⟩

/-- C20 (heartbeat of an in-sync leader), evaluated on the code: the leader of term 1 has
the empty log that `Make` produces, so `sendHeartBeat` spawns its goroutines and they
build a request with `PrevLogIndex = -1` and `PrevLogTerm = 0`.  Server 1, as built by
`Make`, has the same empty log and term 0; it adopts term 1 and answers
`Success = false`. -/
theorem heartBeat_of_empty_log_rejected :
    (sendHeartBeat leaderOfTermOne).2 = true ∧
    heartBeatArgs leaderOfTermOne = ⟨1, 0, -1, 0, [], 0⟩ ∧
    (Make 3 1).logs = leaderOfTermOne.logs ∧
    (Make 3 1).currentTerm ≤ leaderOfTermOne.currentTerm ∧
    AppendEntries (Make 3 1) (heartBeatArgs leaderOfTermOne) =
      some ({ Make 3 1 with currentTerm := 1 }, ⟨1, false⟩) := by
  refine ⟨by decide, rfl, rfl, by decide, rfl⟩

end RaftImpl
